import Mathlib

/-!
Shallow embedding of the trading-bot core (state store, strategy, execution
pipeline, cycle scheduler, settings route) and proofs about it.

Conventions of the embedding:
* JS numbers are modelled by `ℚ`; timestamps (`Date.now()` milliseconds) by `ℤ`,
  passed explicitly as a `now` argument wherever the source reads the clock.
* JS `null`/`undefined`/absent fields are modelled by `Option`.
* The mutable module-level `botState` singleton becomes an explicit `BotState`
  value threaded through every operation.
* `async` network calls become `Except String` values supplied by an
  environment record; a thrown error is the `Except.error` case, and the
  pipeline additionally reports the list of network calls it performed.
* File I/O (config persistence, the on-disk trade log) and `console.log` are
  outside the model.
-/

namespace Bot

/-- Trade configuration (`botState.tradeConfig` in `state.js`). -/
structure TradeConfig where
  tradeSize : ℚ
  leverage : ℚ
  maxLeverage : ℚ
deriving DecidableEq

/-- One activity-log entry (`addLog` in `state.js`); `timestamp` models the
ISO string `new Date().toISOString()` by the millisecond clock value. -/
structure LogEntry where
  timestamp : ℤ
  message : String
  type : String
deriving DecidableEq

/-- Per-pair state record (`botState.pairState[instId]` in `state.js`).
All fields optional: `updatePairState` creates the record as `{}` before
assigning, and `setPairSignal` creates it without a `signal` field. -/
structure PairState where
  lastPosition : Option String
  lastTradeTime : Option ℤ
  signal : Option String
deriving DecidableEq

/-- An open position (`state.js` position objects). -/
structure Position where
  id : String
  instId : String
  side : String
  size : ℚ
  leverage : ℚ
  entryPrice : ℚ
  currentPrice : ℚ
  timestamp : ℤ
  orderId : Option String
  mode : String
deriving DecidableEq

instance : Inhabited Position := ⟨⟨"", "", "", 0, 0, 0, 0, 0, none, ""⟩⟩

/-- Last-trade record (`recordTrade` in `state.js`). -/
structure LastTrade where
  side : String
  price : ℚ
  size : ℚ
  timestamp : ℤ
deriving DecidableEq

/-- Cached market price per instrument (`botState.marketPrices[instId]`). -/
structure MarketPrice where
  price : ℚ
  timestamp : ℤ
deriving DecidableEq

/-- The `botState` singleton of `state.js`, made explicit.  JS objects used as
string-keyed maps (`pairState`, `marketPrices`) are association lists in
insertion order.  The `intervalId` handle is outside the model. -/
structure BotState where
  isRunning : Bool
  currentSignal : String
  lastPosition : Option String
  pairState : List (String × PairState)
  lastTradeTime : Option ℤ
  cooldownSeconds : ℚ
  pairCooldownSeconds : ℚ
  lastTrade : Option LastTrade
  positions : List Position
  tradeConfig : TradeConfig
  logs : List LogEntry
  maxLogs : ℕ
  marketPrices : List (String × MarketPrice)
  lastPrice : Option ℚ
  fastMA : Option ℚ
  slowMA : Option ℚ
deriving DecidableEq

/-- Initial `botState` (no persisted config file: `loadConfig` falls back to
`tradeSize 10, leverage 1, maxLeverage 125`). -/
def initState : BotState :=
  { isRunning := false
    currentSignal := "WAIT"
    lastPosition := none
    pairState := []
    lastTradeTime := none
    cooldownSeconds := 60
    pairCooldownSeconds := 30
    lastTrade := none
    positions := []
    tradeConfig := { tradeSize := 10, leverage := 1, maxLeverage := 125 }
    logs := []
    maxLogs := 100
    marketPrices := []
    lastPrice := none
    fastMA := none
    slowMA := none }

/-- JS `x || default` on an optional string (`undefined` and `""` are falsy). -/
def jsOrS (x : Option String) (d : String) : String :=
  match x with
  | none => d
  | some s => if s = "" then d else s

/-- JS `parseFloat(x) || default` on an optional number (`undefined`/`0` falsy). -/
def jsOrQ (x : Option ℚ) (d : ℚ) : ℚ :=
  match x with
  | none => d
  | some v => if v = 0 then d else v

/-- JS `Math.round`: rounds half toward positive infinity. -/
def jsRound (x : ℚ) : ℤ := ⌊x + 1/2⌋

/-- Rounding to two decimals, `Math.round(x * 100) / 100`. -/
def round2 (x : ℚ) : ℚ := (jsRound (x * 100) : ℚ) / 100

/-- Lookup in a string-keyed association list (JS object property read). -/
def lookupPair (ps : List (String × PairState)) (k : String) : Option PairState :=
  match ps with
  | [] => none
  | (k', v) :: rest => if k' = k then some v else lookupPair rest k

/-- Insert-or-update on a string-keyed association list (JS object property
write); an absent key is appended at the end, as JS insertion order does. -/
def upsertPair (k : String) (ps : List (String × PairState))
    (f : Option PairState → PairState) : List (String × PairState) :=
  match ps with
  | [] => [(k, f none)]
  | (k', v) :: rest =>
    if k' = k then (k', f (some v)) :: rest else (k', v) :: upsertPair k rest f

/-- `Array.prototype.findIndex` specialised to positions. -/
def findIdxPos (pred : Position → Prop) [DecidablePred pred] :
    List Position → Option ℕ
  | [] => none
  | x :: xs => if pred x then some 0 else (findIdxPos pred xs).map (· + 1)

/-- `addLog(message, type)` from `state.js`: unshift the entry, then truncate
to the most recent `maxLogs` entries. -/
def addLog (now : ℤ) (message : String) (type : String) (s : BotState) : BotState :=
  let entry : LogEntry := { timestamp := now, message, type }
  let l := entry :: s.logs
  { s with logs := if s.maxLogs < l.length then l.take s.maxLogs else l }

/-- `setSignal(signal)` from `state.js`. -/
def setSignal (now : ℤ) (signal : String) (s : BotState) : BotState :=
  let s1 :=
    if s.currentSignal ≠ signal then
      addLog now ("Signal changed: " ++ s.currentSignal ++ " → " ++ signal) "signal" s
    else s
  { s1 with currentSignal := signal }

/-- `recordTrade(side, price, size)` from `state.js` (global legacy state). -/
def recordTrade (now : ℤ) (side : String) (price : ℚ) (size : ℚ) (s : BotState) : BotState :=
  let s1 := { s with
    lastTrade := some { side, price, size, timestamp := now }
    lastTradeTime := some now
    lastPosition := some (if side = "buy" then "long" else "short") }
  addLog now ("Trade executed: " ++ side.toUpper ++ " " ++ toString size
    ++ " USDT at $" ++ toString price) "trade" s1

/-- `getPairState(instId)` from `state.js`: lazily creates the record with
`lastPosition null, lastTradeTime null, signal WAIT`. -/
def getPairState (instId : String) (s : BotState) : PairState × BotState :=
  match lookupPair s.pairState instId with
  | some ps => (ps, s)
  | none =>
    let ps : PairState := { lastPosition := none, lastTradeTime := none, signal := some "WAIT" }
    (ps, { s with pairState := upsertPair instId s.pairState (fun _ => ps) })

/-- `updatePairState(instId, side)` from `state.js`. -/
def updatePairState (now : ℤ) (instId : String) (side : String) (s : BotState) : BotState :=
  let lp := if side = "buy" then "long" else "short"
  { s with pairState := upsertPair instId s.pairState (fun old =>
      match old with
      | none => { lastPosition := some lp, lastTradeTime := some now, signal := none }
      | some ps => { ps with lastPosition := some lp, lastTradeTime := some now }) }

/-- `setPairSignal(instId, signal)` from `state.js`. -/
def setPairSignal (instId : String) (signal : String) (s : BotState) : BotState :=
  { s with pairState := upsertPair instId s.pairState (fun old =>
      match old with
      | none => { lastPosition := none, lastTradeTime := none, signal := some signal }
      | some ps => { ps with signal := some signal }) }

/-- `isPairInCooldown(instId)` from `state.js`. -/
def isPairInCooldown (now : ℤ) (instId : String) (s : BotState) : Bool :=
  match lookupPair s.pairState instId with
  | none => false
  | some ps =>
    match ps.lastTradeTime with
    | none => false
    | some t => decide ((((now - t : ℤ) : ℚ) / 1000) < s.pairCooldownSeconds)

/-- `getPairCooldownRemaining(instId)` from `state.js`. -/
def getPairCooldownRemaining (now : ℤ) (instId : String) (s : BotState) : ℤ :=
  match lookupPair s.pairState instId with
  | none => 0
  | some ps =>
    match ps.lastTradeTime with
    | none => 0
    | some t =>
      let elapsed : ℚ := ((now - t : ℤ) : ℚ) / 1000
      max 0 (jsRound (s.pairCooldownSeconds - elapsed))

/-- `updateMarketPrice(instId, price)` from `state.js`: refreshes the cached
price and the `currentPrice` of every open position on that instrument. -/
def updateMarketPrice (instId : String) (price : ℚ) (s : BotState) : BotState :=
  { s with
    marketPrices := upsertMarket instId price s.marketPrices
    positions := s.positions.map (fun pos =>
      if pos.instId = instId then { pos with currentPrice := price } else pos) }
where
  /-- property write `botState.marketPrices[instId] = {...}` (timestamp kept
  abstract as 0 here; no claim reads it). -/
  upsertMarket (k : String) (p : ℚ) :
      List (String × MarketPrice) → List (String × MarketPrice)
  | [] => [(k, ⟨p, 0⟩)]
  | (k', v) :: rest =>
    if k' = k then (k', ⟨p, 0⟩) :: rest else (k', v) :: upsertMarket k p rest

/-- Input object to `addPosition` (the argument object built by callers). -/
structure PositionInput where
  orderId : Option String
  instId : String
  side : String
  size : ℚ
  price : ℚ
  leverage : Option ℚ
  mode : Option String
deriving DecidableEq

/-- `addPosition(position)` from `state.js`: close an opposite-side position
if one exists (flip), then either merge into a same-side position with a
weighted-average entry price or push a new position.  Returns the freshly
built position object, as the source does. -/
def addPosition (now : ℤ) (q : PositionInput) (s : BotState) : Position × BotState :=
  let entryPrice := q.price
  let size := q.size
  let leverage := jsOrQ q.leverage 1
  let newPosition : Position :=
    { id := jsOrS q.orderId ("pos_" ++ toString now)
      instId := q.instId
      side := q.side
      size := size
      leverage := leverage
      entryPrice := entryPrice
      currentPrice := entryPrice
      timestamp := now
      orderId := q.orderId
      mode := jsOrS q.mode "live" }
  let s1 :=
    match findIdxPos (fun p => p.instId = q.instId ∧ p.side ≠ q.side) s.positions with
    | some i =>
      let closedPos := s.positions.getD i default
      addLog now ("Position closed: " ++ closedPos.side.toUpper ++ " " ++ closedPos.instId)
        "trade" { s with positions := s.positions.eraseIdx i }
    | none => s
  let s2 :=
    match findIdxPos (fun p => p.instId = q.instId ∧ p.side = q.side) s1.positions with
    | some i =>
      let existing := s1.positions.getD i default
      let totalSize := existing.size + size
      let avgPrice := (existing.entryPrice * existing.size + entryPrice * size) / totalSize
      let merged := { existing with size := totalSize, entryPrice := avgPrice, leverage := leverage }
      addLog now ("Position added: " ++ q.side.toUpper ++ " " ++ q.instId
          ++ " (avg: $" ++ toString (round2 avgPrice) ++ ")") "trade"
        { s1 with positions := s1.positions.set i merged }
    | none =>
      addLog now ("Position opened: " ++ q.side.toUpper ++ " " ++ toString q.size ++ " "
          ++ q.instId ++ " @ $" ++ toString q.price) "trade"
        { s1 with positions := s1.positions ++ [newPosition] }
  (newPosition, s2)

/-- `closePosition(positionId)` from `state.js`: returns `null` and leaves
the state untouched when no position has the given id. -/
def closePosition (now : ℤ) (positionId : String) (s : BotState) :
    Option Position × BotState :=
  match findIdxPos (fun p => p.id = positionId) s.positions with
  | some i =>
    let pos := s.positions.getD i default
    (some pos,
      addLog now ("Position manually closed: " ++ pos.side.toUpper ++ " " ++ pos.instId)
        "trade" { s with positions := s.positions.eraseIdx i })
  | none => (none, s)

/-- `clearPositions()` from `state.js`. -/
def clearPositions (now : ℤ) (s : BotState) : BotState :=
  addLog now "All positions cleared" "info" { s with positions := [] }

/-- `getTradeConfig()` from `state.js`. -/
def getTradeConfig (s : BotState) : TradeConfig := s.tradeConfig

/-- Input object to `setTradeConfig`; the `margin` field mirrors a JS `margin`
key on the argument object, which the source function never reads. -/
structure ConfigInput where
  tradeSize : Option ℚ
  leverage : Option ℚ
  margin : Option ℚ
deriving DecidableEq

/-- `setTradeConfig(config)` from `state.js`: only the `tradeSize` and
`leverage` keys are consulted; `tradeSize` must be a positive number,
`leverage` is clamped into `[1, maxLeverage]`.  The file persistence of the
changed config is outside the model. -/
def setTradeConfig (now : ℤ) (config : ConfigInput) (s : BotState) :
    TradeConfig × BotState :=
  let s1 :=
    match config.tradeSize with
    | some ts =>
      if 0 < ts then
        addLog now ("Trade size updated to " ++ toString ts ++ " USDT") "info"
          { s with tradeConfig := { s.tradeConfig with tradeSize := ts } }
      else s
    | none => s
  let s2 :=
    match config.leverage with
    | some lv =>
      let leverage := min (max 1 lv) s1.tradeConfig.maxLeverage
      addLog now ("Leverage updated to " ++ toString leverage ++ "x") "info"
        { s1 with tradeConfig := { s1.tradeConfig with leverage := leverage } }
    | none => s1
  (getTradeConfig s2, s2)

/-- View of the per-instrument `lastPosition` as observable through
`pairState` (absent record reads as `null`). -/
def pairLastPosition (s : BotState) (instId : String) : Option String :=
  match lookupPair s.pairState instId with
  | none => none
  | some ps => ps.lastPosition

/-- View of the per-instrument `lastTradeTime` (cooldown clock). -/
def pairLastTradeTime (s : BotState) (instId : String) : Option ℤ :=
  match lookupPair s.pairState instId with
  | none => none
  | some ps => ps.lastTradeTime

/-! Strategy module, `strategy.js`. -/

/-- Fast MA period (`FAST_MA_PERIOD`). -/
def FAST_MA_PERIOD : ℕ := 9

/-- Slow MA period (`SLOW_MA_PERIOD`). -/
def SLOW_MA_PERIOD : ℕ := 21

/-- `calculateSMA(prices, period)`: simple moving average via the
`technicalindicators` `SMA.calculate`, which emits one value per full window —
the value at output index `i` is the arithmetic mean of
`prices[i..i+period-1]`; empty when the series is shorter than the period. -/
def calculateSMA (prices : List ℚ) (period : ℕ) : List ℚ :=
  if prices.length < period then []
  else (List.range (prices.length + 1 - period)).map
    (fun i => ((prices.drop i).take period).sum / (period : ℚ))

/-- Result object of `analyzeMarket`.  `reason` is an `Option` so that the
claimed non-nullness is expressible; `fastMA`/`slowMA` are `null` on the
short-input path and the 2-decimal-rounded current values otherwise. -/
structure Analysis where
  signal : String
  reason : Option String
  fastMA : Option ℚ
  slowMA : Option ℚ
deriving DecidableEq

/-- `analyzeMarket(closePrices)` from `strategy.js`: guard on
`length < SLOW_MA_PERIOD + 2` (or a missing array), then crossover /
trend-continuation detection on the last two values of each SMA series,
comparing unrounded values and rounding only for display. -/
def analyzeMarket (closePrices : Option (List ℚ)) : Analysis :=
  match closePrices with
  | none =>
    { signal := "WAIT", reason := some "Insufficient data for analysis"
      fastMA := none, slowMA := none }
  | some prices =>
    if prices.length < SLOW_MA_PERIOD + 2 then
      { signal := "WAIT", reason := some "Insufficient data for analysis"
        fastMA := none, slowMA := none }
    else
      let fastMAValues := calculateSMA prices FAST_MA_PERIOD
      let slowMAValues := calculateSMA prices SLOW_MA_PERIOD
      let currentFastMA := fastMAValues.getD (fastMAValues.length - 1) 0
      let currentSlowMA := slowMAValues.getD (slowMAValues.length - 1) 0
      let prevFastMA := fastMAValues.getD (fastMAValues.length - 2) 0
      let prevSlowMA := slowMAValues.getD (slowMAValues.length - 2) 0
      let fastMA := round2 currentFastMA
      let slowMA := round2 currentSlowMA
      if prevFastMA ≤ prevSlowMA ∧ currentFastMA > currentSlowMA then
        { signal := "BUY"
          reason := some ("Bullish crossover: Fast MA (" ++ toString fastMA
            ++ ") crossed above Slow MA (" ++ toString slowMA ++ ")")
          fastMA := some fastMA, slowMA := some slowMA }
      else if prevFastMA ≥ prevSlowMA ∧ currentFastMA < currentSlowMA then
        { signal := "SELL"
          reason := some ("Bearish crossover: Fast MA (" ++ toString fastMA
            ++ ") crossed below Slow MA (" ++ toString slowMA ++ ")")
          fastMA := some fastMA, slowMA := some slowMA }
      else if currentFastMA > currentSlowMA then
        { signal := "BUY"
          reason := some ("Bullish trend: Fast MA (" ++ toString fastMA
            ++ ") above Slow MA (" ++ toString slowMA ++ ")")
          fastMA := some fastMA, slowMA := some slowMA }
      else if currentFastMA < currentSlowMA then
        { signal := "SELL"
          reason := some ("Bearish trend: Fast MA (" ++ toString fastMA
            ++ ") below Slow MA (" ++ toString slowMA ++ ")")
          fastMA := some fastMA, slowMA := some slowMA }
      else
        { signal := "WAIT"
          reason := some ("MAs converging: Fast MA (" ++ toString fastMA
            ++ ") ≈ Slow MA (" ++ toString slowMA ++ ")")
          fastMA := some fastMA, slowMA := some slowMA }

/-- Result object of `shouldTrade`; `side` is present only on a trade. -/
structure TradeDecision where
  shouldTrade : Bool
  side : Option String
  reason : String
deriving DecidableEq

/-- `shouldTrade(signal, lastPosition)` from `strategy.js`. -/
def shouldTrade (signal : String) (lastPosition : Option String) : TradeDecision :=
  if signal = "WAIT" then
    { shouldTrade := false, side := none, reason := "No clear signal" }
  else if signal = "BUY" ∧ lastPosition = some "long" then
    { shouldTrade := false, side := none, reason := "Already in long position" }
  else if signal = "SELL" ∧ lastPosition = some "short" then
    { shouldTrade := false, side := none, reason := "Already in short position" }
  else
    { shouldTrade := true
      side := some (if signal = "BUY" then "buy" else "sell")
      reason := signal ++ " signal confirmed" }

/-- Arithmetic mean of the trailing `k` values of a list (the spec's phrasing
of a moving-average value); used only to state claim C3 against the source. -/
def trailingMean (k : ℕ) (l : List ℚ) : ℚ := ((l.drop (l.length - k)).sum) / (k : ℚ)

/-- Signal function as worded by claim C3: BUY on crossover, else BUY on
trend continuation, else SELL on crossover, else SELL on continuation, else
WAIT, with MAs the arithmetic means of the trailing 9 and 21 prices and the
previous MAs those of the series without its last element. -/
def claimSignal (ps : List ℚ) : String :=
  let currFast := trailingMean 9 ps
  let currSlow := trailingMean 21 ps
  let prevFast := trailingMean 9 ps.dropLast
  let prevSlow := trailingMean 21 ps.dropLast
  if prevFast ≤ prevSlow ∧ currFast > currSlow then "BUY"
  else if currFast > currSlow then "BUY"
  else if prevFast ≥ prevSlow ∧ currFast < currSlow then "SELL"
  else if currFast < currSlow then "SELL"
  else "WAIT"

/-! Execution pipeline and cycle scheduler (the bot API route). -/

/-- Ticker data as consumed by the pipeline (`getTicker`; only `last` is read). -/
structure Ticker where
  last : ℚ
deriving DecidableEq

/-- One candle as consumed by the pipeline (`getCandles`; only `close` is read). -/
structure Candle where
  close : ℚ
deriving DecidableEq

/-- Order-placement result (`placeMarketOrder`). -/
structure OrderResult where
  orderId : String
  simulated : Bool
deriving DecidableEq

/-- Environment of one instrument's pipeline run: the outcome each awaited
exchange-connector call would produce (`Except.error` models a thrown error),
plus the connector's demo-mode flag. -/
structure PairEnv where
  ticker : Except String Ticker
  candles : Except String (List Candle)
  order : Except String OrderResult
  demoMode : Bool

/-- Per-instrument result object returned by `executePairTrade`; fields the
source leaves absent on a given path are `none`. -/
structure TradeResult where
  instId : String
  executed : Bool
  reason : Option String
  signal : Option String
  mode : Option String
  side : Option String
  price : Option ℚ
  orderId : Option String
deriving DecidableEq

/-- A network call performed by the pipeline, recorded in order. -/
inductive NetCall where
  | getTicker
  | getCandles
  | placeOrder
deriving DecidableEq

/-- Output of one `executePairTrade` run: the result object, the state after
the run, and the network calls that were performed. -/
structure PipeOut where
  result : TradeResult
  state : BotState
  calls : List NetCall
deriving DecidableEq

/-- Result object for a caught error (`{ instId, executed: false, reason }`). -/
def failResult (instId : String) (m : String) : TradeResult :=
  { instId, executed := false, reason := some m
    signal := none, mode := none, side := none, price := none, orderId := none }

/-- `executePairTrade(instId)` from the bot route: cooldown check, market-data
fetch, analysis, decision, then order placement with state updates only after
a successful order; every thrown error is caught and turned into an
`executed: false` result plus an error log entry.  The `logTrade` call writes
the on-disk trade history, which is outside `BotState`. -/
def executePairTrade (env : PairEnv) (now : ℤ) (instId : String) (s : BotState) : PipeOut :=
  if isPairInCooldown now instId s then
    let r : TradeResult :=
      { instId, executed := false
        reason := some ("Cooldown " ++ toString (getPairCooldownRemaining now instId s) ++ "s")
        signal := none, mode := none, side := none, price := none, orderId := none }
    { result := r, state := s, calls := [] }
  else
    match env.ticker with
    | .error m =>
      { result := failResult instId m
        state := addLog now ("[" ++ instId ++ "] Error: " ++ m) "error" s
        calls := [.getTicker] }
    | .ok ticker =>
      match env.candles with
      | .error m =>
        { result := failResult instId m
          state := addLog now ("[" ++ instId ++ "] Error: " ++ m) "error" s
          calls := [.getTicker, .getCandles] }
      | .ok candles =>
        let closePrices := candles.map (·.close)
        let analysis := analyzeMarket (some closePrices)
        let s1 := updateMarketPrice instId ticker.last s
        let s2 := setPairSignal instId analysis.signal s1
        let pairSt := (getPairState instId s2).1
        let s3 := (getPairState instId s2).2
        let tradeDecision := shouldTrade analysis.signal pairSt.lastPosition
        if tradeDecision.shouldTrade = false then
          let r : TradeResult :=
            { instId, executed := false, reason := some tradeDecision.reason
              signal := some analysis.signal
              mode := none, side := none, price := none, orderId := none }
          { result := r, state := s3, calls := [.getTicker, .getCandles] }
        else
          let mode := if env.demoMode then "demo" else "live"
          let tradeConfig := getTradeConfig s3
          let side := tradeDecision.side.getD ""
          let s4 := addLog now ("[" ++ instId ++ "] " ++ side.toUpper ++ " @ $"
            ++ toString ticker.last ++ " - " ++ toString tradeConfig.tradeSize
            ++ " USDT @ " ++ toString tradeConfig.leverage ++ "x") "trade" s3
          match env.order with
          | .error m =>
            { result := failResult instId m
              state := addLog now ("[" ++ instId ++ "] Error: " ++ m) "error" s4
              calls := [.getTicker, .getCandles, .placeOrder] }
          | .ok order =>
            let s5 := updatePairState now instId side s4
            let s6 := recordTrade now side ticker.last tradeConfig.tradeSize s5
            let s7 := (addPosition now
              { instId := instId, side := side, size := tradeConfig.tradeSize
                price := ticker.last, orderId := some order.orderId
                mode := some mode, leverage := some tradeConfig.leverage } s6).2
            let simText := if order.simulated then " (SIM)" else ""
            let s8 := addLog now ("[" ++ instId ++ "] Order filled! "
              ++ order.orderId ++ simText) "trade" s7
            let r : TradeResult :=
              { instId, executed := true, mode := some mode
                side := tradeDecision.side, price := some ticker.last
                orderId := some order.orderId, reason := none, signal := none }
            { result := r, state := s8, calls := [.getTicker, .getCandles, .placeOrder] }

/-- The fixed instrument list (`TRADING_PAIRS`). -/
def TRADING_PAIRS : List String :=
  ["BTC-USDT", "ETH-USDT", "SOL-USDT", "XRP-USDT", "DOGE-USDT", "ADA-USDT"]

/-- Environment of one cycle: credentials flag and each instrument's
pipeline environment. -/
structure CycleEnv where
  configured : Bool
  pairs : String → PairEnv

/-- Cycle report (`executeTradingCycle`'s return object); `tradesExecuted`
and `totalPairs` are absent on the not-configured path. -/
structure CycleReport where
  executed : Bool
  reason : Option String
  tradesExecuted : Option ℕ
  totalPairs : Option ℕ
  trades : List TradeResult

/-- The per-instrument loop of `executeTradingCycle`: each pair's pipeline is
run in iteration order and its result pushed; `executePairTrade` is total
(its own catch absorbs every error), so the loop's inner `catch` never fires.
The inter-pair rate-limit delay has no observable effect in the model. -/
def runPairs (env : CycleEnv) (now : ℤ) :
    List String → BotState → List TradeResult × ℕ × BotState
  | [], s => ([], 0, s)
  | instId :: rest, s =>
    let out := executePairTrade (env.pairs instId) now instId s
    let tail := runPairs env now rest out.state
    (out.result :: tail.1, (if out.result.executed then 1 else 0) + tail.2.1, tail.2.2)

/-- `executeTradingCycle()` from the bot route. -/
def executeTradingCycle (env : CycleEnv) (now : ℤ) (s : BotState) :
    CycleReport × BotState :=
  let s0 := addLog now ("Scanning " ++ toString TRADING_PAIRS.length ++ " pairs...") "info" s
  if env.configured = false then
    ({ executed := false, reason := some "API not configured"
       tradesExecuted := none, totalPairs := none, trades := [] },
     addLog now "API not configured - skipping trade execution" "error" s0)
  else
    let loop := runPairs env now TRADING_PAIRS s0
    let results := loop.1
    let tradesExecuted := loop.2.1
    let s2 := addLog now ("Cycle complete: " ++ toString tradesExecuted ++ "/"
      ++ toString TRADING_PAIRS.length ++ " trades executed") "info" loop.2.2
    let s3 :=
      match results.find? (fun r => r.instId = "BTC-USDT") with
      | some btcResult =>
        match btcResult.signal with
        | some sig => if sig = "" then s2 else setSignal now sig s2
        | none => s2
      | none => s2
    ({ executed := decide (0 < tradesExecuted), reason := none
       tradesExecuted := some tradesExecuted
       totalPairs := some TRADING_PAIRS.length, trades := results }, s3)

/-! Settings API route (`POST /api/settings`). -/

/-- Parsed request body of the settings POST; a field is `none` when the JSON
key is absent or not of the `typeof`-checked type. -/
structure SettingsBody where
  demoMode : Option Bool
  margin : Option ℚ
  tradeSize : Option ℚ
  leverage : Option ℚ
deriving DecidableEq

/-- The settings `POST` handler's effect on `BotState`: reads
`body.margin ?? body.tradeSize` and, when numeric, forwards it to
`setTradeConfig` as an object whose only key is `margin`; then forwards a
numeric `leverage`.  The demo-mode toggle touches only the exchange
connector, outside `BotState`. -/
def settingsPost (now : ℤ) (body : SettingsBody) (s : BotState) : BotState :=
  let marginValue := body.margin <|> body.tradeSize
  let s1 :=
    match marginValue with
    | some v => (setTradeConfig now { tradeSize := none, leverage := none, margin := some v } s).2
    | none => s
  match body.leverage with
  | some v => (setTradeConfig now { tradeSize := none, leverage := some v, margin := none } s1).2
  | none => s1

/-! Operation sequences for the state-store invariants. -/

/-- One state-store operation, for quantifying over reachable states. -/
inductive Op where
  | addPos (now : ℤ) (input : PositionInput)
  | closePos (now : ℤ) (positionId : String)
  | clearPos (now : ℤ)
  | updPrice (instId : String) (price : ℚ)

/-- Apply one operation to the state. -/
def applyOp (s : BotState) : Op → BotState
  | .addPos now input => (addPosition now input s).2
  | .closePos now pid => (closePosition now pid s).2
  | .clearPos now => clearPositions now s
  | .updPrice instId price => updateMarketPrice instId price s

/-- Run a sequence of operations from the initial (empty-positions) state. -/
def runOps (ops : List Op) : BotState := ops.foldl applyOp initState

/-- Run a sequence of `addLog` appends from the initial (empty-log) state. -/
def runLogs (entries : List LogEntry) : BotState :=
  entries.foldl (fun s e => addLog e.timestamp e.message e.type s) initState

/-- The order-independent core of a position record: everything except the
market-refreshed `currentPrice` and the creation metadata timestamp. -/
def posCore (p : Position) : String × String × String × ℚ × ℚ × ℚ :=
  (p.id, p.instId, p.side, p.size, p.entryPrice, p.leverage)

/-- The invariant underlying claim C1: no two open positions share an
instrument id. -/
def posInv (l : List Position) : Prop := (l.map Position.instId).Nodup

/-! Concrete inputs used by witnesses and counterexamples. -/

/-- A 23-point close series that steps from 1 up to 2, yielding a BUY signal. -/
def stepPrices : List ℚ :=
  [1, 1, 1, 1, 1, 1, 1, 1, 1, 1, 1, 1, 1, 1, 2, 2, 2, 2, 2, 2, 2, 2, 2]

/-- The step series as candles. -/
def stepCandles : List Candle := stepPrices.map Candle.mk

/-- A sample open long position on BTC-USDT at entry 100. -/
def posBtc : Position :=
  { id := "p1", instId := "BTC-USDT", side := "buy", size := 10, leverage := 1
    entryPrice := 100, currentPrice := 100, timestamp := 0
    orderId := some "p1", mode := "live" }

/-- Environment whose order placement throws, with valid market data. -/
def envFailOrder : PairEnv :=
  { ticker := .ok ⟨50⟩, candles := .ok stepCandles
    order := .error "boom", demoMode := true }

/-- Environment where everything succeeds. -/
def envOkOrder : PairEnv :=
  { ticker := .ok ⟨50⟩, candles := .ok stepCandles
    order := .ok ⟨"ord1", true⟩, demoMode := true }

/-- Initial state plus one open BTC-USDT long. -/
def sWithPos : BotState := { initState with positions := [posBtc] }

/-- A buy fill of 10 at 100 on BTC-USDT. -/
def fillA : PositionInput :=
  { orderId := some "o1", instId := "BTC-USDT", side := "buy", size := 10
    price := 100, leverage := none, mode := none }

/-- A buy fill of 10 at 200 on BTC-USDT. -/
def fillB : PositionInput :=
  { orderId := some "o2", instId := "BTC-USDT", side := "buy", size := 10
    price := 200, leverage := none, mode := none }

/-- Cycle environment whose every instrument fails at the ticker fetch. -/
def envAllFail : CycleEnv :=
  { configured := true
    pairs := fun _ => { ticker := .error "down", candles := .error "down"
                        order := .error "down", demoMode := true } }

/-! Helper lemmas about the embedding. -/

theorem findIdxPos_eq_none {pred : Position → Prop} [DecidablePred pred] :
    ∀ {l : List Position}, (∀ x ∈ l, ¬ pred x) → findIdxPos pred l = none := by
  intro l
  induction l with
  | nil => intro _; rfl
  | cons x xs ih =>
    intro h
    simp only [findIdxPos]
    rw [if_neg (h x (List.mem_cons_self x xs)), ih (fun y hy => h y (List.mem_cons_of_mem x hy))]
    rfl

theorem findIdxPos_none_forall {pred : Position → Prop} [DecidablePred pred] :
    ∀ {l : List Position}, findIdxPos pred l = none → ∀ x ∈ l, ¬ pred x := by
  intro l
  induction l with
  | nil => intro _ x hx; cases hx
  | cons y ys ih =>
    intro h x hx
    simp only [findIdxPos] at h
    by_cases hy : pred y
    · rw [if_pos hy] at h; cases h
    · rw [if_neg hy] at h
      rcases List.mem_cons.mp hx with rfl | hx'
      · exact hy
      · cases hf : findIdxPos pred ys with
        | none => exact ih hf x hx'
        | some j => rw [hf] at h; cases h

theorem findIdxPos_some {pred : Position → Prop} [DecidablePred pred] :
    ∀ {l : List Position} {i : ℕ}, findIdxPos pred l = some i →
      i < l.length ∧ pred (l.getD i default) := by
  intro l
  induction l with
  | nil => intro i h; cases h
  | cons y ys ih =>
    intro i h
    simp only [findIdxPos] at h
    by_cases hy : pred y
    · rw [if_pos hy] at h
      cases h
      exact ⟨Nat.succ_pos _, hy⟩
    · rw [if_neg hy] at h
      cases hf : findIdxPos pred ys with
      | none => rw [hf] at h; cases h
      | some j =>
        rw [hf] at h
        cases h
        rcases ih hf with ⟨hlt, hp⟩
        exact ⟨Nat.succ_lt_succ hlt, hp⟩

theorem findIdxPos_append_singleton {pred : Position → Prop} [DecidablePred pred]
    {l : List Position} {x : Position} (h : ∀ y ∈ l, ¬ pred y) (hx : pred x) :
    findIdxPos pred (l ++ [x]) = some l.length := by
  induction l with
  | nil => simp [findIdxPos, hx]
  | cons y ys ih =>
    simp only [List.cons_append, findIdxPos]
    rw [if_neg (h y (List.mem_cons_self y ys))]
    have := ih (fun z hz => h z (List.mem_cons_of_mem y hz))
    simp only [List.append_eq] at this ⊢
    rw [this]
    rfl

theorem map_eraseIdx {α β : Type} (f : α → β) :
    ∀ (l : List α) (i : ℕ), (l.eraseIdx i).map f = (l.map f).eraseIdx i := by
  intro l
  induction l with
  | nil => intro i; rfl
  | cons x xs ih =>
    intro i
    cases i with
    | zero => rfl
    | succ j => simp only [List.eraseIdx, List.map_cons, ih]

theorem getD_map {α β : Type} [Inhabited α] [Inhabited β] (f : α → β)
    (h : f default = default) :
    ∀ (l : List α) (i : ℕ), (l.map f).getD i default = f (l.getD i default) := by
  intro l
  induction l with
  | nil => intro i; simpa using h.symm
  | cons x xs ih =>
    intro i
    cases i with
    | zero => rfl
    | succ j => simpa using ih j

theorem getD_mem {α : Type} {l : List α} {i : ℕ} (h : i < l.length) (d : α) :
    l.getD i d ∈ l := by
  rw [List.getD_eq_getElem?_getD, List.getElem?_eq_getElem h]
  exact List.getElem_mem h

theorem getD_append_length {α : Type} (l : List α) (x d : α) :
    (l ++ [x]).getD l.length d = x := by
  induction l with
  | nil => rfl
  | cons y ys ih => simp only [List.cons_append, List.length_cons, List.getD]; exact ih

theorem set_append_length {α : Type} (l : List α) (x y : α) :
    (l ++ [x]).set l.length y = l ++ [y] := by
  induction l with
  | nil => rfl
  | cons z zs ih => simp [List.set, ih]

theorem set_getD_self {α : Type} :
    ∀ (l : List α) (i : ℕ) (d : α), i < l.length → l.set i (l.getD i d) = l := by
  intro l
  induction l with
  | nil => intro i d h; cases h
  | cons x xs ih =>
    intro i d h
    cases i with
    | zero => rfl
    | succ j => simpa [List.set] using ih j d (Nat.lt_of_succ_lt_succ h)

theorem getD_not_mem_eraseIdx {α : Type} :
    ∀ {L : List α}, L.Nodup → ∀ {i : ℕ}, i < L.length → ∀ (d : α),
      L.getD i d ∉ L.eraseIdx i := by
  intro L
  induction L with
  | nil => intro _ i h; cases h
  | cons x xs ih =>
    intro hN i hi d
    cases i with
    | zero =>
      simpa using (List.nodup_cons.mp hN).1
    | succ j =>
      intro hmem
      have hj : j < xs.length := Nat.lt_of_succ_lt_succ hi
      have hmem' : xs.getD j d ∈ x :: xs.eraseIdx j := hmem
      rcases List.mem_cons.mp hmem' with heq | hmem''
      · exact (List.nodup_cons.mp hN).1 (heq ▸ getD_mem hj d)
      · exact ih (List.nodup_cons.mp hN).2 hj d hmem''

@[simp] theorem addLog_positions (now : ℤ) (m t : String) (s : BotState) :
    (addLog now m t s).positions = s.positions := rfl

@[simp] theorem addLog_pairState (now : ℤ) (m t : String) (s : BotState) :
    (addLog now m t s).pairState = s.pairState := rfl

@[simp] theorem addLog_maxLogs (now : ℤ) (m t : String) (s : BotState) :
    (addLog now m t s).maxLogs = s.maxLogs := rfl

@[simp] theorem addLog_pairCooldownSeconds (now : ℤ) (m t : String) (s : BotState) :
    (addLog now m t s).pairCooldownSeconds = s.pairCooldownSeconds := rfl

theorem addLog_logs_head (now : ℤ) (m t : String) (s : BotState) (h : 0 < s.maxLogs) :
    (addLog now m t s).logs.head? = some { timestamp := now, message := m, type := t } := by
  unfold addLog
  dsimp only
  split
  · cases hM : s.maxLogs with
    | zero => rw [hM] at h; cases h
    | succ k => rfl
  · rfl

@[simp] theorem updateMarketPrice_pairState (i : String) (p : ℚ) (s : BotState) :
    (updateMarketPrice i p s).pairState = s.pairState := rfl

@[simp] theorem updateMarketPrice_logs (i : String) (p : ℚ) (s : BotState) :
    (updateMarketPrice i p s).logs = s.logs := rfl

@[simp] theorem updateMarketPrice_maxLogs (i : String) (p : ℚ) (s : BotState) :
    (updateMarketPrice i p s).maxLogs = s.maxLogs := rfl

@[simp] theorem updateMarketPrice_pairCooldownSeconds (i : String) (p : ℚ) (s : BotState) :
    (updateMarketPrice i p s).pairCooldownSeconds = s.pairCooldownSeconds := rfl

@[simp] theorem setPairSignal_positions (i sg : String) (s : BotState) :
    (setPairSignal i sg s).positions = s.positions := rfl

@[simp] theorem setPairSignal_logs (i sg : String) (s : BotState) :
    (setPairSignal i sg s).logs = s.logs := rfl

@[simp] theorem setPairSignal_maxLogs (i sg : String) (s : BotState) :
    (setPairSignal i sg s).maxLogs = s.maxLogs := rfl

@[simp] theorem setPairSignal_pairCooldownSeconds (i sg : String) (s : BotState) :
    (setPairSignal i sg s).pairCooldownSeconds = s.pairCooldownSeconds := rfl

@[simp] theorem setPairSignal_tradeConfig (i sg : String) (s : BotState) :
    (setPairSignal i sg s).tradeConfig = s.tradeConfig := rfl

@[simp] theorem updatePairState_positions (now : ℤ) (i sd : String) (s : BotState) :
    (updatePairState now i sd s).positions = s.positions := rfl

@[simp] theorem updatePairState_pairCooldownSeconds (now : ℤ) (i sd : String) (s : BotState) :
    (updatePairState now i sd s).pairCooldownSeconds = s.pairCooldownSeconds := rfl

@[simp] theorem recordTrade_pairState (now : ℤ) (sd : String) (p sz : ℚ) (s : BotState) :
    (recordTrade now sd p sz s).pairState = s.pairState := rfl

@[simp] theorem recordTrade_positions (now : ℤ) (sd : String) (p sz : ℚ) (s : BotState) :
    (recordTrade now sd p sz s).positions = s.positions := rfl

@[simp] theorem recordTrade_pairCooldownSeconds (now : ℤ) (sd : String) (p sz : ℚ) (s : BotState) :
    (recordTrade now sd p sz s).pairCooldownSeconds = s.pairCooldownSeconds := rfl

theorem addPosition_pairState (now : ℤ) (q : PositionInput) (s : BotState) :
    ((addPosition now q s).2).pairState = s.pairState := by
  unfold addPosition
  dsimp only
  split <;> split <;> rfl

theorem addPosition_pairCooldownSeconds (now : ℤ) (q : PositionInput) (s : BotState) :
    ((addPosition now q s).2).pairCooldownSeconds = s.pairCooldownSeconds := by
  unfold addPosition
  dsimp only
  split <;> split <;> rfl

theorem lookupPair_upsertPair_self (k : String) (f : Option PairState → PairState) :
    ∀ ps : List (String × PairState),
      lookupPair (upsertPair k ps f) k = some (f (lookupPair ps k)) := by
  intro ps
  induction ps with
  | nil => simp [upsertPair, lookupPair]
  | cons kv rest ih =>
    obtain ⟨k', v⟩ := kv
    by_cases hk : k' = k
    · simp [upsertPair, lookupPair, hk]
    · simp only [upsertPair, lookupPair, if_neg hk]
      exact ih

theorem pairLastPosition_setPairSignal (i sg : String) (s : BotState) :
    pairLastPosition (setPairSignal i sg s) i = pairLastPosition s i := by
  unfold pairLastPosition setPairSignal
  dsimp only
  rw [lookupPair_upsertPair_self]
  cases lookupPair s.pairState i <;> rfl

theorem pairLastTradeTime_setPairSignal (i sg : String) (s : BotState) :
    pairLastTradeTime (setPairSignal i sg s) i = pairLastTradeTime s i := by
  unfold pairLastTradeTime setPairSignal
  dsimp only
  rw [lookupPair_upsertPair_self]
  cases lookupPair s.pairState i <;> rfl

theorem pairLastTradeTime_updatePairState_self (now : ℤ) (i sd : String) (s : BotState) :
    pairLastTradeTime (updatePairState now i sd s) i = some now := by
  unfold pairLastTradeTime updatePairState
  dsimp only
  rw [lookupPair_upsertPair_self]
  cases lookupPair s.pairState i <;> rfl

theorem getPairState_of_some {s : BotState} {i : String} {ps0 : PairState}
    (h : lookupPair s.pairState i = some ps0) : getPairState i s = (ps0, s) := by
  unfold getPairState
  rw [h]

theorem getPairState_after_setPairSignal (i sg : String) (s : BotState) :
    (getPairState i (setPairSignal i sg s)).2 = setPairSignal i sg s
    ∧ (getPairState i (setPairSignal i sg s)).1.lastPosition = pairLastPosition s i
    ∧ (getPairState i (setPairSignal i sg s)).1.lastTradeTime = pairLastTradeTime s i := by
  have hl : lookupPair (setPairSignal i sg s).pairState i
      = some (match lookupPair s.pairState i with
        | none => { lastPosition := none, lastTradeTime := none, signal := some sg }
        | some ps => { ps with signal := some sg }) := by
    unfold setPairSignal
    dsimp only
    rw [lookupPair_upsertPair_self]
  rw [getPairState_of_some hl]
  unfold pairLastPosition pairLastTradeTime
  refine ⟨rfl, ?_, ?_⟩ <;> cases lookupPair s.pairState i <;> rfl

theorem posInv_eraseIdx {l : List Position} (h : posInv l) (i : ℕ) :
    posInv (l.eraseIdx i) := by
  unfold posInv at h ⊢
  rw [map_eraseIdx]
  exact (List.eraseIdx_sublist _ i).nodup h

theorem posInv_updateMarketPrice (i : String) (p : ℚ) {l : List Position}
    (h : posInv l) :
    posInv (l.map fun pos => if pos.instId = i then { pos with currentPrice := p } else pos) := by
  unfold posInv at h ⊢
  rw [List.map_map]
  have : (Position.instId ∘ fun pos =>
      if pos.instId = i then { pos with currentPrice := p } else pos) = Position.instId := by
    funext pos
    simp only [Function.comp_apply]
    split <;> rfl
  rw [this]
  exact h

theorem eraseIdx_no_instId {l : List Position} (h : posInv l) {i : ℕ}
    (hi : i < l.length) :
    ∀ p ∈ l.eraseIdx i, p.instId ≠ (l.getD i default).instId := by
  intro p hp heq
  have hmap : (l.getD i default).instId ∉ (l.map Position.instId).eraseIdx i := by
    have hgd : (l.map Position.instId).getD i (default : Position).instId
        = (l.getD i default).instId := getD_map Position.instId rfl l i
    have hlen : i < (l.map Position.instId).length := by simpa using hi
    have := getD_not_mem_eraseIdx (L := l.map Position.instId) h hlen
      (default : Position).instId
    rw [hgd] at this
    exact this
  apply hmap
  rw [← map_eraseIdx]
  exact heq ▸ List.mem_map_of_mem Position.instId hp

theorem nodup_map_append_singleton {l : List Position} {x : Position}
    (h : posInv l) (hfresh : ∀ p ∈ l, p.instId ≠ x.instId) :
    posInv (l ++ [x]) := by
  unfold posInv at h ⊢
  rw [List.map_append, List.nodup_append]
  refine ⟨h, List.nodup_singleton _, ?_⟩
  intro a ha hb
  simp only [List.map_cons, List.map_nil, List.mem_singleton] at hb
  rcases List.mem_map.mp ha with ⟨p, hp, rfl⟩
  exact hfresh p hp hb

theorem posInv_addPosition (now : ℤ) (q : PositionInput) (s : BotState)
    (h : posInv s.positions) : posInv ((addPosition now q s).2.positions) := by
  unfold addPosition
  dsimp only
  cases hOpp : findIdxPos (fun p => p.instId = q.instId ∧ p.side ≠ q.side) s.positions with
  | some i =>
    -- flip: the unique position on this instrument is erased first
    rcases findIdxPos_some hOpp with ⟨hi, hpred⟩
    have h1 : posInv (s.positions.eraseIdx i) := posInv_eraseIdx h i
    have hnone : ∀ p ∈ s.positions.eraseIdx i, p.instId ≠ q.instId := by
      intro p hp
      have := eraseIdx_no_instId h hi p hp
      rw [hpred.1] at this
      exact this
    dsimp only
    simp only [addLog_positions]
    rw [findIdxPos_eq_none (fun p hp hc => hnone p hp hc.1)]
    dsimp only [addLog_positions]
    exact nodup_map_append_singleton h1 hnone
  | none =>
    have hOppAll := findIdxPos_none_forall hOpp
    dsimp only
    cases hSame : findIdxPos (fun p => p.instId = q.instId ∧ p.side = q.side) s.positions with
    | some j =>
      -- merge: index j is overwritten with a record on the same instrument
      rcases findIdxPos_some hSame with ⟨hj, hpredj⟩
      dsimp only [addLog_positions]
      unfold posInv
      rw [List.map_set]
      have hval : ∀ sz ep lv, (({ s.positions.getD j default with
            size := sz, entryPrice := ep, leverage := lv } : Position)).instId
          = (s.positions.map Position.instId).getD j default := by
        intro sz ep lv
        rw [getD_map Position.instId rfl]
      rw [hval, set_getD_self _ j _ (by simpa using hj)]
      exact h
    | none =>
      -- open: the instrument is absent from the collection
      have hSameAll := findIdxPos_none_forall hSame
      have hfresh : ∀ p ∈ s.positions, p.instId ≠ q.instId := by
        intro p hp heq
        by_cases hsd : p.side = q.side
        · exact hSameAll p hp ⟨heq, hsd⟩
        · exact hOppAll p hp ⟨heq, hsd⟩
      dsimp only [addLog_positions]
      exact nodup_map_append_singleton h hfresh

theorem posInv_applyOp {s : BotState} (h : posInv s.positions) (op : Op) :
    posInv ((applyOp s op).positions) := by
  cases op with
  | addPos now input => exact posInv_addPosition now input s h
  | closePos now pid =>
    unfold applyOp closePosition
    dsimp only
    cases hf : findIdxPos (fun p => p.id = pid) s.positions with
    | some i =>
      dsimp only [addLog_positions]
      exact posInv_eraseIdx h i
    | none => exact h
  | clearPos now =>
    unfold applyOp clearPositions
    dsimp only [addLog_positions]
    exact List.nodup_nil
  | updPrice instId price =>
    unfold applyOp updateMarketPrice
    dsimp only
    exact posInv_updateMarketPrice instId price h

theorem posInv_runOps (ops : List Op) : posInv (runOps ops).positions := by
  unfold runOps
  have : ∀ s : BotState, posInv s.positions → posInv ((ops.foldl applyOp s).positions) := by
    induction ops with
    | nil => intro s h; exact h
    | cons op rest ih =>
      intro s h
      exact ih (applyOp s op) (posInv_applyOp h op)
  exact this initState List.nodup_nil

theorem addPosition_fresh (now : ℤ) (q : PositionInput) (s : BotState)
    (hfresh : ∀ p ∈ s.positions, p.instId ≠ q.instId) :
    (addPosition now q s).2.positions = s.positions ++ [(addPosition now q s).1] := by
  conv_lhs => unfold addPosition
  dsimp only
  rw [findIdxPos_eq_none (fun p hp hc => hfresh p hp hc.1)]
  dsimp only
  rw [findIdxPos_eq_none (fun p hp hc => hfresh p hp hc.1)]
  dsimp only [addLog_positions]
  rfl

theorem take_append_take {α : Type} (l m : List α) (n : ℕ) :
    (l ++ m.take n).take n = (l ++ m).take n := by
  rw [List.take_append_eq_append_take, List.take_append_eq_append_take, List.take_take]
  congr 1
  simp [Nat.min_eq_right, Nat.sub_le]

theorem addLog_logs_take (now : ℤ) (m t : String) (s : BotState)
    (hmax : s.maxLogs = 100) :
    (addLog now m t s).logs
      = (({ timestamp := now, message := m, type := t } : LogEntry) :: s.logs).take 100 := by
  unfold addLog
  dsimp only
  rw [hmax]
  split
  · rfl
  · next hlen =>
    rw [List.take_of_length_le]
    omega

theorem runLogs_general :
    ∀ (entries : List LogEntry) (s : BotState), s.maxLogs = 100 → s.logs.length ≤ 100 →
      (entries.foldl (fun s e => addLog e.timestamp e.message e.type s) s).logs
          = (entries.reverse ++ s.logs).take 100
        ∧ (entries.foldl (fun s e => addLog e.timestamp e.message e.type s) s).maxLogs = 100 := by
  intro entries
  induction entries with
  | nil =>
    intro s hmax h
    exact ⟨by simpa using (List.take_of_length_le h).symm, hmax⟩
  | cons e es ih =>
    intro s hmax h
    have hstep : (addLog e.timestamp e.message e.type s).logs = (e :: s.logs).take 100 :=
      addLog_logs_take e.timestamp e.message e.type s hmax
    have hmax' : (addLog e.timestamp e.message e.type s).maxLogs = 100 := by
      rw [addLog_maxLogs]; exact hmax
    have hlen' : (addLog e.timestamp e.message e.type s).logs.length ≤ 100 := by
      rw [hstep]
      simp only [List.length_take]
      exact Nat.min_le_left _ _
    rcases ih (addLog e.timestamp e.message e.type s) hmax' hlen' with ⟨hl, hm⟩
    refine ⟨?_, hm⟩
    simp only [List.foldl_cons] at hl ⊢
    rw [hl, hstep, take_append_take]
    simp [List.append_assoc]

theorem pairLastTradeTime_congr {s1 s2 : BotState} (h : s1.pairState = s2.pairState)
    (i : String) : pairLastTradeTime s1 i = pairLastTradeTime s2 i := by
  unfold pairLastTradeTime
  rw [h]

theorem pairLastPosition_congr {s1 s2 : BotState} (h : s1.pairState = s2.pairState)
    (i : String) : pairLastPosition s1 i = pairLastPosition s2 i := by
  unfold pairLastPosition
  rw [h]

theorem getPairState_pairCooldownSeconds (i : String) (s : BotState) :
    (getPairState i s).2.pairCooldownSeconds = s.pairCooldownSeconds := by
  unfold getPairState
  split <;> rfl

theorem getPairState_positions (i : String) (s : BotState) :
    (getPairState i s).2.positions = s.positions := by
  unfold getPairState
  split <;> rfl

theorem getPairState_maxLogs (i : String) (s : BotState) :
    (getPairState i s).2.maxLogs = s.maxLogs := by
  unfold getPairState
  split <;> rfl

theorem stepCandles_close : stepCandles.map (fun c => c.close) = stepPrices := by
  simp [stepCandles, List.map_map]
  rfl

theorem getD_range_map (f : ℕ → ℚ) {m i : ℕ} (h : i < m) :
    ((List.range m).map f).getD i 0 = f i := by
  rw [List.getD_eq_getElem?_getD, List.getElem?_map, List.getElem?_range h]
  rfl

theorem length_calculateSMA {ps : List ℚ} {k : ℕ} (h : k ≤ ps.length) :
    (calculateSMA ps k).length = ps.length + 1 - k := by
  unfold calculateSMA
  rw [if_neg (by omega)]
  simp

theorem calculateSMA_getD_last {ps : List ℚ} {k : ℕ} (hk : 0 < k) (h : k ≤ ps.length) :
    (calculateSMA ps k).getD ((calculateSMA ps k).length - 1) 0 = trailingMean k ps := by
  rw [length_calculateSMA h]
  unfold calculateSMA
  rw [if_neg (by omega)]
  rw [show ps.length + 1 - k - 1 = ps.length - k by omega]
  rw [getD_range_map _ (by omega)]
  unfold trailingMean
  rw [List.take_of_length_le (by rw [List.length_drop]; omega)]

theorem calculateSMA_getD_prev {ps : List ℚ} {k : ℕ} (hk : 0 < k) (h : k + 1 ≤ ps.length) :
    (calculateSMA ps k).getD ((calculateSMA ps k).length - 2) 0
      = trailingMean k ps.dropLast := by
  rw [length_calculateSMA (by omega)]
  unfold calculateSMA
  rw [if_neg (by omega)]
  rw [show ps.length + 1 - k - 2 = ps.length - k - 1 by omega]
  rw [getD_range_map _ (by omega)]
  unfold trailingMean
  have hlist : ps.dropLast.drop (ps.dropLast.length - k)
      = (ps.drop (ps.length - k - 1)).take k := by
    have hj : ps.dropLast.length - k = ps.length - k - 1 := by
      rw [List.length_dropLast]; omega
    rw [hj, List.dropLast_eq_take, List.drop_take]
    congr 1
    omega
  rw [hlist]

theorem crossoverOrder (pF pS cF cS : ℚ) :
    (if pF ≤ pS ∧ cF > cS then "BUY"
     else if pF ≥ pS ∧ cF < cS then "SELL"
     else if cF > cS then "BUY"
     else if cF < cS then "SELL" else "WAIT")
    = (if pF ≤ pS ∧ cF > cS then "BUY"
       else if cF > cS then "BUY"
       else if pF ≥ pS ∧ cF < cS then "SELL"
       else if cF < cS then "SELL" else "WAIT") := by
  by_cases hb : pF ≤ pS ∧ cF > cS
  · simp [hb]
  · by_cases hs : pF ≥ pS ∧ cF < cS
    · have hgt : ¬ cF > cS := by
        rcases hs with ⟨_, h⟩
        exact fun hc => absurd h (not_lt.mpr hc.le)
      simp [hb, hs, hgt]
    · rcases lt_trichotomy cF cS with h | h | h
      · simp [hb, hs, h, not_lt.mpr h.le]
      · simp [hb, hs, h, lt_irrefl]
      · simp [hb, hs, h]

theorem analyzeMarket_long (ps : List ℚ) (h : 23 ≤ ps.length) :
    (analyzeMarket (some ps)).signal = claimSignal ps
    ∧ (analyzeMarket (some ps)).fastMA = some (round2 (trailingMean 9 ps))
    ∧ (analyzeMarket (some ps)).slowMA = some (round2 (trailingMean 21 ps))
    ∧ (analyzeMarket (some ps)).reason ≠ none := by
  have hf1 : (calculateSMA ps 9).getD ((calculateSMA ps 9).length - 1) 0
      = trailingMean 9 ps := calculateSMA_getD_last (by norm_num) (by omega)
  have hf2 : (calculateSMA ps 9).getD ((calculateSMA ps 9).length - 2) 0
      = trailingMean 9 ps.dropLast := calculateSMA_getD_prev (by norm_num) (by omega)
  have hs1 : (calculateSMA ps 21).getD ((calculateSMA ps 21).length - 1) 0
      = trailingMean 21 ps := calculateSMA_getD_last (by norm_num) (by omega)
  have hs2 : (calculateSMA ps 21).getD ((calculateSMA ps 21).length - 2) 0
      = trailingMean 21 ps.dropLast := calculateSMA_getD_prev (by norm_num) (by omega)
  unfold analyzeMarket
  simp only [FAST_MA_PERIOD, SLOW_MA_PERIOD]
  rw [if_neg (by omega)]
  rw [hf1, hf2, hs1, hs2]
  unfold claimSignal
  dsimp only
  rw [← crossoverOrder (trailingMean 9 ps.dropLast) (trailingMean 21 ps.dropLast)
    (trailingMean 9 ps) (trailingMean 21 ps)]
  constructor
  · split_ifs <;> rfl
  · refine ⟨?_, ?_, ?_⟩ <;> split_ifs <;> simp

@[simp] theorem pairLastTradeTime_addLog (now : ℤ) (m t : String) (s : BotState) (i : String) :
    pairLastTradeTime (addLog now m t s) i = pairLastTradeTime s i := rfl

@[simp] theorem pairLastTradeTime_recordTrade (now : ℤ) (sd : String) (p sz : ℚ)
    (s : BotState) (i : String) :
    pairLastTradeTime (recordTrade now sd p sz s) i = pairLastTradeTime s i := rfl

@[simp] theorem pairLastTradeTime_updateMarketPrice (j : String) (p : ℚ) (s : BotState)
    (i : String) :
    pairLastTradeTime (updateMarketPrice j p s) i = pairLastTradeTime s i := rfl

@[simp] theorem pairLastTradeTime_addPosition (now : ℤ) (q : PositionInput) (s : BotState)
    (i : String) :
    pairLastTradeTime (addPosition now q s).2 i = pairLastTradeTime s i :=
  pairLastTradeTime_congr (addPosition_pairState now q s) i

@[simp] theorem pairLastPosition_addLog (now : ℤ) (m t : String) (s : BotState) (i : String) :
    pairLastPosition (addLog now m t s) i = pairLastPosition s i := rfl

@[simp] theorem pairLastPosition_updateMarketPrice (j : String) (p : ℚ) (s : BotState)
    (i : String) :
    pairLastPosition (updateMarketPrice j p s) i = pairLastPosition s i := rfl

theorem executePairTrade_cases (env : PairEnv) (now : ℤ) (instId : String) (s : BotState) :
    (executePairTrade env now instId s).result.executed = false
    ∨ (pairLastTradeTime (executePairTrade env now instId s).state instId = some now
       ∧ (executePairTrade env now instId s).state.pairCooldownSeconds = s.pairCooldownSeconds
       ∧ ∃ o, env.order = Except.ok o) := by
  unfold executePairTrade
  dsimp only
  repeat' split
  all_goals try exact Or.inl rfl
  all_goals refine Or.inr ⟨?_, ?_, ⟨_, by assumption⟩⟩
  all_goals first
    | (simp only [pairLastTradeTime_addLog, pairLastTradeTime_addPosition,
         pairLastTradeTime_recordTrade]
       exact pairLastTradeTime_updatePairState_self now instId _ _)
    | simp only [addLog_pairCooldownSeconds, addPosition_pairCooldownSeconds,
        recordTrade_pairCooldownSeconds, updatePairState_pairCooldownSeconds,
        getPairState_pairCooldownSeconds, setPairSignal_pairCooldownSeconds,
        updateMarketPrice_pairCooldownSeconds]

theorem executePairTrade_order_error_core (env : PairEnv) (now : ℤ) (instId : String)
    (s : BotState) {tk : Ticker} {cd : List Candle} {m : String}
    (htk : env.ticker = Except.ok tk) (hcd : env.candles = Except.ok cd)
    (hord : env.order = Except.error m)
    (hcool : isPairInCooldown now instId s = false)
    (hdec : (shouldTrade (analyzeMarket (some (cd.map (fun c => c.close)))).signal
        (pairLastPosition s instId)).shouldTrade = true)
    (hmax : 0 < s.maxLogs) :
    (executePairTrade env now instId s).result = failResult instId m
    ∧ (executePairTrade env now instId s).state.logs.head?
        = some { timestamp := now, message := "[" ++ instId ++ "] Error: " ++ m, type := "error" }
    ∧ (executePairTrade env now instId s).calls = [.getTicker, .getCandles, .placeOrder]
    ∧ pairLastTradeTime (executePairTrade env now instId s).state instId
        = pairLastTradeTime s instId
    ∧ pairLastPosition (executePairTrade env now instId s).state instId
        = pairLastPosition s instId
    ∧ (executePairTrade env now instId s).state.positions
        = (updateMarketPrice instId tk.last s).positions := by
  unfold executePairTrade
  dsimp only
  rw [if_neg (by simp [hcool]), htk]
  try dsimp only
  rw [hcd]
  try dsimp only
  have hgp := getPairState_after_setPairSignal instId
    (analyzeMarket (some (cd.map (fun c => c.close)))).signal (updateMarketPrice instId tk.last s)
  rw [hgp.1, hgp.2.1, pairLastPosition_updateMarketPrice]
  rw [if_neg (by simp [hdec])]
  try dsimp only
  rw [hord]
  try dsimp only
  refine ⟨rfl, ?_, rfl, ?_, ?_, ?_⟩
  · refine addLog_logs_head now _ _ _ ?_
    simp only [addLog_maxLogs, setPairSignal_maxLogs, updateMarketPrice_maxLogs]
    exact hmax
  · simp only [pairLastTradeTime_addLog]
    rw [pairLastTradeTime_setPairSignal, pairLastTradeTime_updateMarketPrice]
  · simp only [pairLastPosition_addLog]
    rw [pairLastPosition_setPairSignal, pairLastPosition_updateMarketPrice]
  · simp only [addLog_positions, setPairSignal_positions]

theorem executePairTrade_success_executed (env : PairEnv) (now : ℤ) (instId : String)
    (s : BotState) {tk : Ticker} {cd : List Candle} {o : OrderResult}
    (htk : env.ticker = Except.ok tk) (hcd : env.candles = Except.ok cd)
    (hord : env.order = Except.ok o)
    (hcool : isPairInCooldown now instId s = false)
    (hdec : (shouldTrade (analyzeMarket (some (cd.map (fun c => c.close)))).signal
        (pairLastPosition s instId)).shouldTrade = true) :
    (executePairTrade env now instId s).result.executed = true := by
  unfold executePairTrade
  dsimp only
  rw [if_neg (by simp [hcool]), htk]
  try dsimp only
  rw [hcd]
  try dsimp only
  have hgp := getPairState_after_setPairSignal instId
    (analyzeMarket (some (cd.map (fun c => c.close)))).signal (updateMarketPrice instId tk.last s)
  rw [hgp.1, hgp.2.1, pairLastPosition_updateMarketPrice]
  rw [if_neg (by simp [hdec])]
  try dsimp only
  rw [hord]

theorem claimSignal_stepPrices : claimSignal stepPrices = "BUY" := by
  unfold claimSignal trailingMean stepPrices
  norm_num [List.dropLast]

theorem stepPrices_signal : (analyzeMarket (some stepPrices)).signal = "BUY" := by
  rw [(analyzeMarket_long stepPrices (by norm_num [stepPrices])).1, claimSignal_stepPrices]

theorem executePairTrade_result_instId (env : PairEnv) (now : ℤ) (instId : String)
    (s : BotState) :
    (executePairTrade env now instId s).result.instId = instId := by
  unfold executePairTrade
  dsimp only
  repeat' split
  all_goals rfl

theorem executePairTrade_ticker_error_executed (env : PairEnv) (now : ℤ) (instId : String)
    (s : BotState) (m : String) (h : env.ticker = Except.error m) :
    (executePairTrade env now instId s).result.executed = false := by
  unfold executePairTrade
  dsimp only
  split
  · rfl
  · rw [h]
    rfl

theorem executePairTrade_candles_error_executed (env : PairEnv) (now : ℤ) (instId : String)
    (s : BotState) (m : String) (h : env.candles = Except.error m) :
    (executePairTrade env now instId s).result.executed = false := by
  unfold executePairTrade
  dsimp only
  repeat' split
  all_goals try rfl
  all_goals exfalso
  all_goals
    obtain ⟨c, hc⟩ : ∃ c, env.candles = Except.ok c := ⟨_, by assumption⟩
  all_goals rw [h] at hc
  all_goals cases hc

theorem executePairTrade_order_error_executed (env : PairEnv) (now : ℤ) (instId : String)
    (s : BotState) (m : String) (h : env.order = Except.error m) :
    (executePairTrade env now instId s).result.executed = false := by
  unfold executePairTrade
  dsimp only
  repeat' split
  all_goals try rfl
  all_goals rename_i o heq hdemo hsim
  all_goals rw [h] at heq
  all_goals cases heq

theorem runPairs_results (env : CycleEnv) (now : ℤ) :
    ∀ (pairs : List String) (s : BotState),
      (runPairs env now pairs s).1.map (fun r => r.instId) = pairs
      ∧ ∀ r ∈ (runPairs env now pairs s).1,
          (∀ m, (env.pairs r.instId).ticker = Except.error m → r.executed = false)
          ∧ (∀ m, (env.pairs r.instId).candles = Except.error m → r.executed = false)
          ∧ (∀ m, (env.pairs r.instId).order = Except.error m → r.executed = false) := by
  intro pairs
  induction pairs with
  | nil => exact fun s => ⟨rfl, by intro r hr; cases hr⟩
  | cons instId rest ih =>
    intro s
    unfold runPairs
    dsimp only
    constructor
    · simp only [List.map_cons]
      rw [executePairTrade_result_instId, (ih _).1]
    · intro r hr
      rcases List.mem_cons.mp hr with rfl | hr'
      · have hrid : (executePairTrade (env.pairs instId) now instId s).result.instId = instId :=
          executePairTrade_result_instId _ _ _ _
        refine ⟨?_, ?_, ?_⟩
        · intro m hm
          rw [hrid] at hm
          exact executePairTrade_ticker_error_executed _ _ _ _ _ hm
        · intro m hm
          rw [hrid] at hm
          exact executePairTrade_candles_error_executed _ _ _ _ _ hm
        · intro m hm
          rw [hrid] at hm
          exact executePairTrade_order_error_executed _ _ _ _ _ hm
      · exact (ih _).2 r hr'

/-! The claim theorems. -/

/-- Claim C1: for every reachable state of the state store (any sequence of
`addPosition`, `closePosition`, `clearPositions`, `updateMarketPrice` from the
empty positions collection), the open-positions collection never holds a
buy-side and a sell-side position for the same instrument at once, and holds
at most one position per `(instId, side)` pair. -/
theorem positions_never_two_sided (ops : List Op) :
    ((runOps ops).positions.Pairwise fun p q => ¬(p.instId = q.instId ∧ p.side ≠ q.side))
    ∧ ((runOps ops).positions.Pairwise fun p q => ¬(p.instId = q.instId ∧ p.side = q.side)) := by
  have h : ((runOps ops).positions.map Position.instId).Nodup := posInv_runOps ops
  rw [List.Nodup, List.pairwise_map] at h
  exact ⟨h.imp (fun hne hc => hne hc.1), h.imp (fun hne hc => hne hc.1)⟩

/-- Claim C4: the decision table of `shouldTrade` over all nine combinations
of signal (`BUY`, `SELL`, `WAIT`) and last position (`long`, `short`, null):
`WAIT` never trades, `BUY` with `long` and `SELL` with `short` do not trade,
and every other combination trades with side `buy` for `BUY` and `sell`
for `SELL`. -/
theorem shouldTrade_decision_table :
    (shouldTrade "WAIT" none).shouldTrade = false
    ∧ (shouldTrade "WAIT" (some "long")).shouldTrade = false
    ∧ (shouldTrade "WAIT" (some "short")).shouldTrade = false
    ∧ (shouldTrade "BUY" (some "long")).shouldTrade = false
    ∧ (shouldTrade "BUY" (some "short")).shouldTrade = true
    ∧ (shouldTrade "BUY" (some "short")).side = some "buy"
    ∧ (shouldTrade "BUY" none).shouldTrade = true
    ∧ (shouldTrade "BUY" none).side = some "buy"
    ∧ (shouldTrade "SELL" (some "short")).shouldTrade = false
    ∧ (shouldTrade "SELL" (some "long")).shouldTrade = true
    ∧ (shouldTrade "SELL" (some "long")).side = some "sell"
    ∧ (shouldTrade "SELL" none).shouldTrade = true
    ∧ (shouldTrade "SELL" none).side = some "sell" :=
  ⟨rfl, rfl, rfl, rfl, rfl, rfl, rfl, rfl, rfl, rfl, rfl, rfl, rfl⟩

/-- Claim C2 counterexample: with an open BTC-USDT long at currentPrice 100,
a fetched ticker price of 50 and a failing order, the pipeline reports
`executed=false` but the open-positions collection is not exactly as it was
before the invocation — the analysis stage refreshed the position's
`currentPrice` — so the claim as stated (positions untouched across a
failed-order invocation) is false. -/
theorem executePairTrade_failed_order_counterexample :
    envFailOrder.order = Except.error "boom"
    ∧ (executePairTrade envFailOrder 0 "BTC-USDT" sWithPos).result.executed = false
    ∧ (executePairTrade envFailOrder 0 "BTC-USDT" sWithPos).state.positions
        ≠ sWithPos.positions := by
  obtain ⟨hres, _, _, _, _, hpos⟩ :=
    executePairTrade_order_error_core envFailOrder 0 "BTC-USDT" sWithPos rfl rfl rfl rfl
      (by rw [stepCandles_close, stepPrices_signal]; rfl) (by decide)
  refine ⟨rfl, by rw [hres]; rfl, ?_⟩
  rw [hpos]
  intro hcontra
  have h50 := congrArg (fun l => (l.headD default).currentPrice) hcontra
  norm_num [updateMarketPrice, sWithPos, posBtc, initState] at h50

/-- Claim C2 (amended): when the order submission fails, `executePairTrade`
returns `executed=false` with the error's message as reason, appends an error
log entry, and leaves the instrument's `lastTradeTime` (cooldown clock), its
`lastPosition`, and every position's id, instrument, side, size, entry price
and leverage exactly as they were; the positions collection itself is exactly
as it stood after the analysis stage's market-price refresh (which runs
regardless of the trade outcome), and only a successful order mutates the
pair state or merges/opens positions. -/
theorem executePairTrade_failed_order (env : PairEnv) (now : ℤ) (instId : String)
    (s : BotState) {tk : Ticker} {cd : List Candle} {m : String}
    (htk : env.ticker = Except.ok tk) (hcd : env.candles = Except.ok cd)
    (hord : env.order = Except.error m)
    (hcool : isPairInCooldown now instId s = false)
    (hdec : (shouldTrade (analyzeMarket (some (cd.map (fun c => c.close)))).signal
        (pairLastPosition s instId)).shouldTrade = true)
    (hmax : 0 < s.maxLogs) :
    (executePairTrade env now instId s).result.executed = false
    ∧ (executePairTrade env now instId s).result.reason = some m
    ∧ (executePairTrade env now instId s).state.logs.head?
        = some { timestamp := now, message := "[" ++ instId ++ "] Error: " ++ m, type := "error" }
    ∧ pairLastTradeTime (executePairTrade env now instId s).state instId
        = pairLastTradeTime s instId
    ∧ pairLastPosition (executePairTrade env now instId s).state instId
        = pairLastPosition s instId
    ∧ (executePairTrade env now instId s).state.positions
        = (updateMarketPrice instId tk.last s).positions
    ∧ (executePairTrade env now instId s).state.positions.map posCore
        = s.positions.map posCore := by
  obtain ⟨hres, hlog, _, hltt, hlp, hpos⟩ :=
    executePairTrade_order_error_core env now instId s htk hcd hord hcool hdec hmax
  refine ⟨by rw [hres]; rfl, by rw [hres]; rfl, hlog, hltt, hlp, hpos, ?_⟩
  rw [hpos]
  unfold updateMarketPrice
  dsimp only
  rw [List.map_map]
  have hcomp : posCore ∘ (fun pos =>
      if pos.instId = instId then { pos with currentPrice := tk.last } else pos) = posCore := by
    funext pos
    simp only [Function.comp_apply]
    split <;> rfl
  rw [hcomp]

/-- Claim C2 witness: a failing order on BTC-USDT with valid market data and
a tradable signal yields `executed=false` carrying the error message, with
the cooldown clock and last position unchanged. -/
theorem executePairTrade_failed_order_witness :
    (executePairTrade envFailOrder 0 "BTC-USDT" initState).result.executed = false
    ∧ (executePairTrade envFailOrder 0 "BTC-USDT" initState).result.reason = some "boom"
    ∧ pairLastTradeTime (executePairTrade envFailOrder 0 "BTC-USDT" initState).state "BTC-USDT"
        = pairLastTradeTime initState "BTC-USDT" := by
  have h := executePairTrade_failed_order envFailOrder 0 "BTC-USDT" initState rfl rfl rfl rfl
    (by rw [stepCandles_close, stepPrices_signal]; rfl) (by decide)
  exact ⟨h.1, h.2.1, h.2.2.2.1⟩

/-- Claim C5: after an invocation that completes a successful trade for an
instrument at time `t`, any invocation for that instrument at a time `t'`
with `t' − t` under the 30-second per-pair cooldown window returns
`executed=false` with a reason naming the remaining cooldown, performs no
network call (so no order is submitted), and leaves the state untouched. -/
theorem pairCooldown_blocks_retrade (env1 env2 : PairEnv) (s : BotState) (instId : String)
    (t t' : ℤ)
    (hex : (executePairTrade env1 t instId s).result.executed = true)
    (hcd30 : s.pairCooldownSeconds = 30)
    (hlt : t' - t < 30000) :
    (executePairTrade env2 t' instId (executePairTrade env1 t instId s).state).result.executed
        = false
    ∧ (executePairTrade env2 t' instId (executePairTrade env1 t instId s).state).result.reason
        = some ("Cooldown " ++ toString (getPairCooldownRemaining t' instId
            (executePairTrade env1 t instId s).state) ++ "s")
    ∧ (executePairTrade env2 t' instId (executePairTrade env1 t instId s).state).calls = []
    ∧ (executePairTrade env2 t' instId (executePairTrade env1 t instId s).state).state
        = (executePairTrade env1 t instId s).state := by
  rcases executePairTrade_cases env1 t instId s with hfail | ⟨hltt, hcds, _⟩
  · rw [hex] at hfail
    cases hfail
  · have hcool : isPairInCooldown t' instId (executePairTrade env1 t instId s).state = true := by
      unfold isPairInCooldown
      unfold pairLastTradeTime at hltt
      cases hl : lookupPair (executePairTrade env1 t instId s).state.pairState instId with
      | none =>
        rw [hl] at hltt
        cases hltt
      | some ps =>
        rw [hl] at hltt
        dsimp only at hltt
        dsimp only
        rw [hltt, hcds, hcd30]
        rw [decide_eq_true_eq]
        rw [div_lt_iff₀ (by norm_num : (0 : ℚ) < 1000)]
        have : ((t' - t : ℤ) : ℚ) < ((30000 : ℤ) : ℚ) := Int.cast_lt.mpr hlt
        push_cast at this ⊢
        linarith
    generalize hS : (executePairTrade env1 t instId s).state = S at hcool ⊢
    unfold executePairTrade
    dsimp only
    rw [if_pos hcool]
    exact ⟨rfl, rfl, rfl, rfl⟩

/-- Claim C5 witness: a successful BTC-USDT trade at t=0 followed by a second
invocation at t=1000ms is rejected by the cooldown with no network call. -/
theorem pairCooldown_blocks_retrade_witness :
    (executePairTrade envOkOrder 1000 "BTC-USDT"
        (executePairTrade envOkOrder 0 "BTC-USDT" initState).state).result.executed = false
    ∧ (executePairTrade envOkOrder 1000 "BTC-USDT"
        (executePairTrade envOkOrder 0 "BTC-USDT" initState).state).calls = [] := by
  have hex : (executePairTrade envOkOrder 0 "BTC-USDT" initState).result.executed = true :=
    executePairTrade_success_executed envOkOrder 0 "BTC-USDT" initState rfl rfl rfl rfl
      (by rw [stepCandles_close, stepPrices_signal]; rfl)
  have h := pairCooldown_blocks_retrade envOkOrder envOkOrder initState "BTC-USDT" 0 1000
    hex rfl (by norm_num)
  exact ⟨h.1, h.2.2.1⟩

/-- Claim C6: with configured credentials, a trading cycle produces exactly
one result per configured instrument in iteration order, and an instrument
whose pipeline throws at any of its fallible calls — ticker fetch, candles
fetch, or order placement — is recorded as an `executed=false` result
without preventing the other instruments' entries. -/
theorem executeTradingCycle_isolates (env : CycleEnv) (now : ℤ) (s : BotState)
    (hconf : env.configured = true) :
    ((executeTradingCycle env now s).1.trades.map (fun r => r.instId) = TRADING_PAIRS)
    ∧ (∀ r ∈ (executeTradingCycle env now s).1.trades, ∀ m,
        (env.pairs r.instId).ticker = Except.error m → r.executed = false)
    ∧ (∀ r ∈ (executeTradingCycle env now s).1.trades, ∀ m,
        (env.pairs r.instId).candles = Except.error m → r.executed = false)
    ∧ (∀ r ∈ (executeTradingCycle env now s).1.trades, ∀ m,
        (env.pairs r.instId).order = Except.error m → r.executed = false) := by
  unfold executeTradingCycle
  dsimp only
  rw [if_neg (by simp [hconf])]
  dsimp only
  obtain ⟨h1, h2⟩ := runPairs_results env now TRADING_PAIRS
    (addLog now ("Scanning " ++ toString TRADING_PAIRS.length ++ " pairs...") "info" s)
  exact ⟨h1, fun r hr m hm => (h2 r hr).1 m hm,
    fun r hr m hm => (h2 r hr).2.1 m hm,
    fun r hr m hm => (h2 r hr).2.2 m hm⟩

/-- Claim C6 witness: a cycle in which every instrument's network calls fail
still reports one result per configured instrument, in order. -/
theorem executeTradingCycle_isolates_witness :
    (executeTradingCycle envAllFail 0 initState).1.trades.map (fun r => r.instId)
      = TRADING_PAIRS :=
  (executeTradingCycle_isolates envAllFail 0 initState rfl).1

/-- Claim C3: `analyzeMarket` returns `WAIT` with a non-null reason and null
MA values when the close-price list is missing or shorter than 23; otherwise
its signal follows the claimed decision order — BUY on crossover, else BUY on
trend continuation, else SELL on crossover, else SELL on continuation, else
WAIT — computed on the unrounded trailing 9- and 21-price means, with the
2-decimal rounding appearing only in the reported MA values. -/
theorem analyzeMarket_spec (cp : Option (List ℚ)) :
    ((cp = none ∨ ∃ ps, cp = some ps ∧ ps.length < 23) →
      (analyzeMarket cp).signal = "WAIT" ∧ (analyzeMarket cp).reason ≠ none
      ∧ (analyzeMarket cp).fastMA = none ∧ (analyzeMarket cp).slowMA = none)
    ∧ (∀ ps, cp = some ps → 23 ≤ ps.length →
        (analyzeMarket cp).signal = claimSignal ps
        ∧ (analyzeMarket cp).fastMA = some (round2 (trailingMean 9 ps))
        ∧ (analyzeMarket cp).slowMA = some (round2 (trailingMean 21 ps))) := by
  constructor
  · rintro (rfl | ⟨ps, rfl, hlen⟩)
    · exact ⟨rfl, by simp [analyzeMarket], rfl, rfl⟩
    · unfold analyzeMarket
      dsimp only
      rw [if_pos (by simp only [SLOW_MA_PERIOD]; omega)]
      exact ⟨rfl, by simp, rfl, rfl⟩
  · rintro ps rfl hlen
    have h := analyzeMarket_long ps hlen
    exact ⟨h.1, h.2.1, h.2.2.1⟩

/-- Claim C3 witness: the 23-point step series is long enough and follows the
claimed formula, while a 3-point series is rejected with `WAIT` and null MAs. -/
theorem analyzeMarket_spec_witness :
    (analyzeMarket (some stepPrices)).signal = claimSignal stepPrices
    ∧ (analyzeMarket (some [(1 : ℚ), 2, 3])).signal = "WAIT"
    ∧ (analyzeMarket (some [(1 : ℚ), 2, 3])).fastMA = none := by
  refine ⟨((analyzeMarket_spec (some stepPrices)).2 stepPrices rfl
    (by norm_num [stepPrices])).1, ?_, ?_⟩
  · exact ((analyzeMarket_spec (some [(1 : ℚ), 2, 3])).1 (Or.inr ⟨_, rfl, by norm_num⟩)).1
  · exact ((analyzeMarket_spec (some [(1 : ℚ), 2, 3])).1 (Or.inr ⟨_, rfl, by norm_num⟩)).2.2.1

/-- Claim C7: two successive same-side fills on the same instrument with no
intervening close merge into a single position whose size is the sum of the
fill sizes and whose entry price is the size-weighted average of the fill
prices (the second fill's leverage is kept). -/
theorem addPosition_same_side_merge (now1 now2 : ℤ) (q1 q2 : PositionInput) (s : BotState)
    (hfresh : ∀ p ∈ s.positions, p.instId ≠ q1.instId)
    (hinst : q2.instId = q1.instId) (hside : q2.side = q1.side)
    (hs1 : 0 < q1.size) (hs2 : 0 < q2.size) :
    ((addPosition now2 q2 (addPosition now1 q1 s).2).2).positions
      = s.positions ++ [{ (addPosition now1 q1 s).1 with
          size := q1.size + q2.size
          entryPrice := (q1.price * q1.size + q2.price * q2.size) / (q1.size + q2.size)
          leverage := jsOrQ q2.leverage 1 }] := by
  have hA : (addPosition now1 q1 s).2.positions
      = s.positions ++ [(addPosition now1 q1 s).1] := addPosition_fresh now1 q1 s hfresh
  have hfst_inst : (addPosition now1 q1 s).1.instId = q1.instId := rfl
  have hfst_side : (addPosition now1 q1 s).1.side = q1.side := rfl
  have hfst_size : (addPosition now1 q1 s).1.size = q1.size := rfl
  have hfst_entry : (addPosition now1 q1 s).1.entryPrice = q1.price := rfl
  generalize hg1 : (addPosition now1 q1 s).1 = new1 at hA hfst_inst hfst_side hfst_size hfst_entry ⊢
  generalize hg2 : (addPosition now1 q1 s).2 = sA at hA ⊢
  conv_lhs => unfold addPosition
  dsimp only
  rw [hA]
  rw [findIdxPos_eq_none (l := s.positions ++ [new1])
    (by
      intro p hp hc
      rcases List.mem_append.mp hp with hold | hnew
      · exact hfresh p hold (hinst ▸ hc.1)
      · rw [List.mem_singleton] at hnew
        exact hc.2 (by rw [hnew, hfst_side, hside]))]
  dsimp only
  rw [hA]
  rw [findIdxPos_append_singleton
    (by
      intro y hy hc
      exact hfresh y hy (hinst ▸ hc.1))
    (by exact ⟨by rw [hfst_inst, hinst], by rw [hfst_side, hside]⟩)]
  dsimp only [addLog_positions]
  rw [getD_append_length, set_append_length]
  rw [hfst_size, hfst_entry]

/-- Claim C7 witness: fills of size 10 at price 100 and size 10 at price 200
on BTC-USDT yield one position of size 20 with entry price 150. -/
theorem addPosition_same_side_merge_witness :
    ((addPosition 1 fillB (addPosition 0 fillA initState).2).2).positions.map
        (fun p => (p.instId, p.side, p.size, p.entryPrice))
      = [("BTC-USDT", "buy", (20 : ℚ), (150 : ℚ))] := by
  have h := addPosition_same_side_merge 0 1 fillA fillB initState
    (by intro p hp; cases hp) rfl rfl (by norm_num [fillA]) (by norm_num [fillB])
  rw [h]
  show List.map _ ([] ++ [_]) = _
  simp only [List.nil_append, List.map_cons, List.map_nil]
  refine congrArg (· :: []) ?_
  show ((("BTC-USDT" : String), ("buy" : String), (fillA.size + fillB.size : ℚ),
    ((fillA.price * fillA.size + fillB.price * fillB.size) / (fillA.size + fillB.size) : ℚ)))
    = (("BTC-USDT" : String), ("buy" : String), (20 : ℚ), (150 : ℚ))
  norm_num [fillA, fillB]

/-- Claim C8: after any sequence of log appends from the empty log, the
activity log holds at most `maxLogs = 100` entries, equals the most-recent-
first truncation of the append history (so an overflowing append drops the
oldest entry), and a freshly appended entry is always at the front. -/
theorem addLog_capacity_fifo (entries : List LogEntry) :
    (runLogs entries).logs.length ≤ 100
    ∧ (runLogs entries).logs = entries.reverse.take 100
    ∧ ∀ e : LogEntry, (runLogs (entries ++ [e])).logs.head? = some e := by
  have hbase := runLogs_general entries initState rfl (by simp [initState])
  have hlogs : (runLogs entries).logs = entries.reverse.take 100 := by
    unfold runLogs
    rw [hbase.1]
    simp [initState]
  refine ⟨?_, hlogs, ?_⟩
  · rw [hlogs]
    simp only [List.length_take]
    exact Nat.min_le_left _ _
  · intro e
    have h2 := runLogs_general (entries ++ [e]) initState rfl (by simp [initState])
    have hl2 : (runLogs (entries ++ [e])).logs
        = ((entries ++ [e]).reverse ++ initState.logs).take 100 := by
      unfold runLogs
      exact h2.1
    rw [hl2]
    simp only [List.reverse_append, List.reverse_singleton, List.singleton_append]
    rw [show ((e :: entries.reverse) ++ initState.logs) = e :: (entries.reverse ++ initState.logs)
      from rfl]
    rw [show (100 : ℕ) = 99 + 1 from rfl, List.take_succ_cons, List.head?_cons]

/-- Claim C9 (code bug): the settings POST handler forwards the margin/size
value to `setTradeConfig` under the key `margin`, which `setTradeConfig`
never reads, so a positive numeric margin of 50 — whether sent as `margin`
or as the legacy `tradeSize` key — leaves the stored trade size at its prior
value 10, while the leverage path does clamp into `[1, maxLeverage]`. -/
theorem settings_margin_update_dropped :
    (settingsPost 0 { demoMode := none, margin := some 50, tradeSize := none, leverage := none } initState).tradeConfig.tradeSize = 10
    ∧ (settingsPost 0 { demoMode := none, margin := none, tradeSize := some 50, leverage := none } initState).tradeConfig.tradeSize = 10
    ∧ (settingsPost 0 { demoMode := none, margin := none, tradeSize := none, leverage := some 500 } initState).tradeConfig.leverage = 125
    ∧ initState.tradeConfig.tradeSize = 10 := by
  refine ⟨rfl, rfl, ?_, rfl⟩
  show ((setTradeConfig 0 { tradeSize := none, leverage := some 500, margin := none }
    initState).2).tradeConfig.leverage = 125
  unfold setTradeConfig
  dsimp only [initState]
  norm_num
  rfl

/-- Claim C10: `closePosition` with an id matching no open position returns
null and leaves the whole state unchanged — no position removed, no log
entry appended. -/
theorem closePosition_missing_id_noop (now : ℤ) (positionId : String) (s : BotState)
    (h : ∀ p ∈ s.positions, p.id ≠ positionId) :
    closePosition now positionId s = (none, s) := by
  unfold closePosition
  rw [findIdxPos_eq_none h]

/-- Claim C10 witness: closing id `nope` on a state holding only position
`p1` returns null and the untouched state. -/
theorem closePosition_missing_id_noop_witness :
    (∀ p ∈ sWithPos.positions, p.id ≠ "nope")
    ∧ closePosition 7 "nope" sWithPos = (none, sWithPos) :=
  ⟨by decide, closePosition_missing_id_noop 7 "nope" sWithPos (by decide)⟩

end Bot
